import Mathlib

/-!
# libquo: the `quo-info` tool and the public result codes

A shallow embedding of `src/tools/quo-info.c` and of the declarations of
`src/quo.h`, followed by the properties proved about them.

Conventions of the embedding.

* A C string is the list of its characters up to, and without, the
  terminating NUL (`List Char`).
* The macros that `config.h` / `quo-private.h` supply at build time
  (`PACKAGE`, `QUO_BUILD_PREFIX`, `QUO_BUILD_LIBS`, `PATH_MAX`, ...) are the
  fields of `BuildConfig`; every statement is for an arbitrary configuration.
* `getopt_long_only` belongs to the C library.  `main` is a function of what
  that call hands back: the successive return values `c` (with the `optarg`
  set by each call) and, once it has answered `-1`, the word `argv[optind]`
  when `optind < argc`.
* File-scope variables (`target_lang`, `static_build`) and the two output
  streams are threaded explicitly through `MainState`.
-/

namespace Quo

/-! ## `quo.h`: result codes -/

def QUO_SUCCESS : Int := 0
def QUO_ERR : Int := 1
def QUO_ERR_SYS : Int := 2
def QUO_ERR_OOR : Int := 3
def QUO_ERR_INVLD_ARG : Int := 4
def QUO_ERR_CALL_BEFORE_INIT : Int := 5
def QUO_ERR_TOPO : Int := 6
def QUO_ERR_MPI : Int := 7
def QUO_ERR_NOT_SUPPORTED : Int := 8
def QUO_ERR_POP : Int := 9

/-- The type `quo_obj_type_t` of `quo.h`. -/
inductive quo_obj_type_t where
  | QUO_MACHINE
  | QUO_NODE
  | QUO_SOCKET
  | QUO_CORE
  | QUO_PU
  deriving DecidableEq, Repr

/-! ## `stdlib.h` -/

def EXIT_SUCCESS : Nat := 0
def EXIT_FAILURE : Nat := 1

/-! ## `quo-info.c`: constants -/

/-- The build-time macros used by `quo-info.c`. -/
structure BuildConfig where
  PACKAGE : List Char
  VERSION : List Char
  QUO_VER : Int
  QUO_SUBVER : Int
  PACKAGE_URL : List Char
  HWLOC_VERSION : List Char
  QUO_BUILD_USER : List Char
  QUO_BUILD_HOST : List Char
  QUO_BUILD_DATE : List Char
  QUO_BUILD_PREFIX : List Char
  QUO_BUILD_CC : List Char
  QUO_BUILD_WHICH_CC : List Char
  QUO_BUILD_CFLAGS : List Char
  QUO_BUILD_CPPFLAGS : List Char
  QUO_BUILD_CXXFLAGS : List Char
  QUO_BUILD_CXXCPPFLAGS : List Char
  QUO_WITH_MPIFC : Bool
  QUO_BUILD_FC : List Char
  QUO_BUILD_WHICH_FC : List Char
  QUO_BUILD_FFLAGS : List Char
  QUO_BUILD_FCFLAGS : List Char
  QUO_BUILD_LDFLAGS : List Char
  QUO_BUILD_LIBS : List Char
  PACKAGE_BUGREPORT : List Char
  PATH_MAX : Nat

def APP_NAME : List Char := "quo-info".data

def FLOOR : Int := 256
def CFLAGS : Int := 257
def CFLAGS_ONLY_I : Int := 258
def LIBS : Int := 259
def LIBS_ONLY_LUC : Int := 260
def LIBS_ONLY_L : Int := 261
def LANG : Int := 262
def STATIC : Int := 263
def CONFIG : Int := 264
def HELP : Int := 265
def CEILING : Int := 266

/-- Number of options that we support. -/
def N_OPTIONS : Nat := (CEILING - FLOOR - 1).toNat

def LANG_C : Int := 0
def LANG_CPLUSPLUS : Int := 1
def LANG_FORTRAN : Int := 2

/-- The table `option_help`: option text and help text. -/
def option_help (cfg : BuildConfig) : List (List Char × List Char) :=
  [ ("[--cflags]       ".data, "Output all pre-processor and compiler flags.".data),
    ("[--cflags-only-I]".data, "Output -I flags.".data),
    ("[--libs]         ".data, "Output all linker flags.".data),
    ("[--libs-only-L]  ".data, "Output -L flags.".data),
    ("[--libs-only-l]  ".data, "Output -l flags.".data),
    ("[--lang LANG]    ".data,
      "Set language (C, C++, Fortran) ".data ++ "for output [Default=C]".data),
    ("[--static]       ".data, "Output linker flags for static linking.".data),
    ("[--config]       ".data, "Output ".data ++ cfg.PACKAGE ++ " configuration.".data),
    ("[--help]         ".data, "Show this message and exit.".data) ]

/-! ## `quo-info.c`: the functions -/

/-- What `show_usage` writes to standard output. -/
def show_usage (cfg : BuildConfig) : List Char :=
  ("\nUsage:\n".data ++ APP_NAME ++ " [OPTIONS]\n".data ++ "Options:\n".data) ++
  ((List.range N_OPTIONS).map fun opidx =>
    let e := (option_help cfg).getD opidx ([], [])
    "  ".data ++ e.1 ++ " ".data ++ e.2 ++ "\n".data).flatten

/-- The buffer contents after `memset(buf, 0, ...)` and
`snprintf(buf, size, fmt, ...)`, where `formatted` is the fully formatted
text: at most `size - 1` characters are stored (none when `size` is 0). -/
def snprintf (size : Nat) (formatted : List Char) : List Char :=
  formatted.take (size - 1)

def get_cflags_only_I (cfg : BuildConfig) : List Char :=
  "-I".data ++ cfg.QUO_BUILD_PREFIX ++ "/include".data

def get_cflags (cfg : BuildConfig) : List Char :=
  snprintf (cfg.PATH_MAX - 1) (get_cflags_only_I cfg)

def get_libs_only_l (cfg : BuildConfig) (static_build : Bool) : List Char :=
  let priv := cfg.QUO_BUILD_LIBS
  let lquo := "-lquo".data
  snprintf (cfg.PATH_MAX - 1) (lquo ++ " ".data ++ (if static_build then priv else []))

def get_libs_only_L (cfg : BuildConfig) : List Char :=
  "-L".data ++ cfg.QUO_BUILD_PREFIX ++ "/lib".data

def get_libs (cfg : BuildConfig) (static_build : Bool) : List Char :=
  snprintf (cfg.PATH_MAX - 1)
    (get_libs_only_L cfg ++ " ".data ++ get_libs_only_l cfg static_build)

def set_lang : List Char := []

/-- The C format `%d`. -/
def fmt_d (n : Int) : List Char := (toString n).data

/-- What `show_config` writes to standard output. -/
def show_config (cfg : BuildConfig) : List Char :=
  let with_fort : Bool := cfg.QUO_WITH_MPIFC
  "Package: ".data ++ cfg.PACKAGE ++ "\n".data ++
  "Version: ".data ++ cfg.VERSION ++ "\n".data ++
  "API Version: ".data ++ fmt_d cfg.QUO_VER ++ ".".data ++ fmt_d cfg.QUO_SUBVER ++ "\n".data ++
  "Package URL: ".data ++ cfg.PACKAGE_URL ++ "\n".data ++
  "hwloc Version: ".data ++ cfg.HWLOC_VERSION ++ "\n".data ++
  "Build User: ".data ++ cfg.QUO_BUILD_USER ++ "\n".data ++
  "Build Host: ".data ++ cfg.QUO_BUILD_HOST ++ "\n".data ++
  "Build Date: ".data ++ cfg.QUO_BUILD_DATE ++ "\n".data ++
  "Build Prefix: ".data ++ cfg.QUO_BUILD_PREFIX ++ "\n".data ++
  "Build CC: ".data ++ cfg.QUO_BUILD_CC ++ "\n".data ++
  "Build CC Path: ".data ++ cfg.QUO_BUILD_WHICH_CC ++ "\n".data ++
  "Build CFLAGS: ".data ++ cfg.QUO_BUILD_CFLAGS ++ "\n".data ++
  "Build CPPFLAGS: ".data ++ cfg.QUO_BUILD_CPPFLAGS ++ "\n".data ++
  "Build CXXFLAGS: ".data ++ cfg.QUO_BUILD_CXXFLAGS ++ "\n".data ++
  "Build CXXCPPFLAGS: ".data ++ cfg.QUO_BUILD_CXXCPPFLAGS ++ "\n".data ++
  "Build Fortran Support: ".data ++ (if with_fort then "yes".data else "no".data) ++ "\n".data ++
  (if cfg.QUO_WITH_MPIFC then
    "Build FC: ".data ++ cfg.QUO_BUILD_FC ++ "\n".data ++
    "Build FC Path: ".data ++ cfg.QUO_BUILD_WHICH_FC ++ "\n".data ++
    "Build FFLAGS: ".data ++ cfg.QUO_BUILD_FFLAGS ++ "\n".data ++
    "Build FCFLAGS: ".data ++ cfg.QUO_BUILD_FCFLAGS ++ "\n".data
   else []) ++
  "Build LDFLAGS: ".data ++ cfg.QUO_BUILD_LDFLAGS ++ "\n".data ++
  "Build LIBS: ".data ++ cfg.QUO_BUILD_LIBS ++ "\n".data ++
  "Report Bugs To: ".data ++ cfg.PACKAGE_BUGREPORT

/-- The function-pointer type `action` of `main`: the six functions that are
ever stored in the table. -/
inductive action where
  | get_cflags
  | get_cflags_only_I
  | get_libs
  | get_libs_only_l
  | get_libs_only_L
  | set_lang
  deriving DecidableEq, Repr

/-- Calling a stored function pointer, `actions[i]()`. -/
def action.call (cfg : BuildConfig) (static_build : Bool) : action → List Char
  | action.get_cflags => Quo.get_cflags cfg
  | action.get_cflags_only_I => Quo.get_cflags_only_I cfg
  | action.get_libs => Quo.get_libs cfg static_build
  | action.get_libs_only_l => Quo.get_libs_only_l cfg static_build
  | action.get_libs_only_L => Quo.get_libs_only_L cfg
  | action.set_lang => Quo.set_lang

def max_flags : Nat := 64

/-- One answer of `getopt_long_only`: the value returned and `optarg`. -/
structure ParsedOpt where
  c : Int
  optarg : List Char
  deriving DecidableEq, Repr

/-- What `main` receives from the command line through `getopt_long_only`. -/
structure CommandLine where
  opts : List ParsedOpt
  leftover : Option (List Char)

/-- The variables `main` reads and writes, and the two output streams. -/
structure MainState where
  actions : List (Option action)
  flagi : Nat
  rc : Int
  target_lang : Int
  static_build : Bool
  stdout : List Char
  stderr : List Char

/-- The statements `actions[flagi % max_flags] = f; flagi++;`. -/
def MainState.record (s : MainState) (f : action) : MainState :=
  { s with actions := s.actions.set (s.flagi % max_flags) (some f), flagi := s.flagi + 1 }

/-- The `while (-1 != (c = getopt_long_only(...))) switch (c)` loop.  The
boolean of the result says whether the loop was left by `goto out`.  Once
the answers are used up `getopt_long_only` answers `-1`. -/
def getopt_loop (cfg : BuildConfig) : List ParsedOpt → MainState → MainState × Bool
  | [], s => (s, false)
  | o :: rest, s =>
    if o.c = -1 then (s, false)
    else if o.c = HELP then
      ({ s with stdout := s.stdout ++ show_usage cfg }, true)
    else if o.c = CONFIG then
      ({ s with stdout := s.stdout ++ show_config cfg }, true)
    else if o.c = CFLAGS then getopt_loop cfg rest (s.record action.get_cflags)
    else if o.c = CFLAGS_ONLY_I then getopt_loop cfg rest (s.record action.get_cflags_only_I)
    else if o.c = LIBS then getopt_loop cfg rest (s.record action.get_libs)
    else if o.c = LIBS_ONLY_L then getopt_loop cfg rest (s.record action.get_libs_only_l)
    else if o.c = LIBS_ONLY_LUC then getopt_loop cfg rest (s.record action.get_libs_only_L)
    else if o.c = LANG then getopt_loop cfg rest (s.record action.set_lang)
    else if o.c = STATIC then getopt_loop cfg rest { s with static_build := true }
    else
      ({ s with stdout := s.stdout ++ show_usage cfg, rc := QUO_ERR_INVLD_ARG }, true)

/-- The loop `for (int i = 0; actions[i] && i < max_flags; ++i) printf(...)`,
from index `i` on; the result is the text printed.  `actions[i]` is tested
first, as in the source; at `i = max_flags` that read is past the table and
the second test then ends the loop whatever was read. -/
def display_from (cfg : BuildConfig) (static_build : Bool) (actions : List (Option action)) :
    Nat → Nat → List Char
  | 0, _ => []
  | fuel + 1, i =>
    match actions.getD i none with
    | none => []
    | some f =>
      if i < max_flags then
        (if i = 0 then [] else " ".data) ++ f.call cfg static_build ++
          display_from cfg static_build actions fuel (i + 1)
      else []

/-- What `main` leaves behind. -/
structure Result where
  stdout : List Char
  stderr : List Char
  status : Nat
  target_lang : Int
  static_build : Bool

/-- The variables at the start of `main`: the table zeroed by `memset`,
`flagi = 0`, `rc = QUO_SUCCESS`, the file-scope defaults, nothing printed. -/
def main_start : MainState :=
  { actions := List.replicate max_flags none, flagi := 0, rc := QUO_SUCCESS,
    target_lang := LANG_C, static_build := false, stdout := [], stderr := [] }

/-- The function `main` of `quo-info.c`. -/
def main (cfg : BuildConfig) (argv : CommandLine) : Result :=
  let (s1, out) := getopt_loop cfg argv.opts main_start
  let s2 : MainState :=
    if out then s1
    else
      match argv.leftover with
      | some word =>
        { s1 with
          stderr := s1.stderr ++ ("unrecognized input: ".data ++ [Char.ofNat 34] ++ word ++
            [Char.ofNat 34] ++ "\n".data),
          stdout := s1.stdout ++ show_usage cfg,
          rc := QUO_ERR_INVLD_ARG }
      | none =>
        { s1 with
          stdout := s1.stdout ++
            display_from cfg s1.static_build s1.actions (max_flags + 1) 0 }
  { stdout := s2.stdout, stderr := s2.stderr,
    status := if QUO_SUCCESS = s2.rc then EXIT_SUCCESS else EXIT_FAILURE,
    target_lang := s2.target_lang, static_build := s2.static_build }

/-! ## Vocabulary of the statements about `main` -/

/-- The table `long_opts`: name, whether an argument is required, value. -/
def long_opts : List (List Char × Bool × Int) :=
  [ ("cflags".data, false, CFLAGS),
    ("cflags-only-I".data, false, CFLAGS_ONLY_I),
    ("libs".data, false, LIBS),
    ("libs-only-L".data, false, LIBS_ONLY_LUC),
    ("libs-only-l".data, false, LIBS_ONLY_L),
    ("lang".data, true, LANG),
    ("static".data, false, STATIC),
    ("config".data, false, CONFIG),
    ("help".data, false, HELP) ]

/-- The values `getopt_long_only` returns for the options of `long_opts`. -/
def recognized_options : List Int := long_opts.map fun e => e.2.2

/-- A recognized option other than `--help` and `--config`. -/
def continues (c : Int) : Prop := c ∈ recognized_options ∧ c ≠ HELP ∧ c ≠ CONFIG

instance (c : Int) : Decidable (continues c) := by unfold continues; infer_instance

/-- A return value that stands for no option of `long_opts` (in practice `?`,
which `getopt_long_only` returns for an unknown option or a missing argument). -/
def unrecognized (c : Int) : Prop := c ∉ recognized_options ∧ c ≠ -1

instance (c : Int) : Decidable (unrecognized c) := by unfold unrecognized; infer_instance

/-- The five options that ask for a flag string. -/
def flag_options : List Int := [CFLAGS, CFLAGS_ONLY_I, LIBS, LIBS_ONLY_LUC, LIBS_ONLY_L]

/-- The flag string an option asks for, when `--static` is not given. -/
def flag_string (cfg : BuildConfig) (c : Int) : List Char :=
  if c = CFLAGS then get_cflags cfg
  else if c = CFLAGS_ONLY_I then get_cflags_only_I cfg
  else if c = LIBS then get_libs cfg false
  else if c = LIBS_ONLY_LUC then get_libs_only_L cfg
  else if c = LIBS_ONLY_L then get_libs_only_l cfg false
  else []

/-- The function `main` stores for a flag option of value `c`. -/
def flag_fn (c : Int) : action :=
  if c = CFLAGS then action.get_cflags
  else if c = CFLAGS_ONLY_I then action.get_cflags_only_I
  else if c = LIBS then action.get_libs
  else if c = LIBS_ONLY_LUC then action.get_libs_only_L
  else action.get_libs_only_l

/-- The text of `--libs-only-l` before it is cut to the buffer. -/
def libs_only_l_text (cfg : BuildConfig) (static_build : Bool) : List Char :=
  "-lquo".data ++ " ".data ++ (if static_build then cfg.QUO_BUILD_LIBS else "".data)

/-- The text of `--libs` before it is cut to the buffer: the `-L` flags, one
space, the `-l` flags. -/
def libs_text (cfg : BuildConfig) (static_build : Bool) : List Char :=
  ("-L".data ++ cfg.QUO_BUILD_PREFIX ++ "/lib".data) ++ " ".data ++
    libs_only_l_text cfg static_build

/-- A configuration used for the concrete evaluations. -/
def sample_config : BuildConfig :=
  { PACKAGE := "quo".data, VERSION := "1.2".data, QUO_VER := 1, QUO_SUBVER := 2,
    PACKAGE_URL := [], HWLOC_VERSION := "1.11".data, QUO_BUILD_USER := [],
    QUO_BUILD_HOST := [], QUO_BUILD_DATE := [], QUO_BUILD_PREFIX := "/usr".data,
    QUO_BUILD_CC := "mpicc".data, QUO_BUILD_WHICH_CC := [], QUO_BUILD_CFLAGS := [],
    QUO_BUILD_CPPFLAGS := [], QUO_BUILD_CXXFLAGS := [], QUO_BUILD_CXXCPPFLAGS := [],
    QUO_WITH_MPIFC := false, QUO_BUILD_FC := [], QUO_BUILD_WHICH_FC := [],
    QUO_BUILD_FFLAGS := [], QUO_BUILD_FCFLAGS := [], QUO_BUILD_LDFLAGS := [],
    QUO_BUILD_LIBS := "-lhwloc".data, PACKAGE_BUGREPORT := [], PATH_MAX := 4096 }

/-- Sixty-four times `--cflags`, then `--libs-only-L`. -/
def sixty_five_flags : List ParsedOpt :=
  List.replicate 64 ⟨CFLAGS, []⟩ ++ [⟨LIBS_ONLY_LUC, []⟩]

/-! ## The binding stack behind `quo_bind_push` / `quo_bind_pop`

`quo.h` declares the two operations; their bodies are not part of the
sources at hand.  The definitions of this section follow sections 3, 4.1, 4.2,
4.4 and 7 of the specification. -/

/-- Modelled from the spec: an affinity mask, "the set of processing units a
process is currently permitted to execute on", as the list of their
identifiers.  The type is missing from the sources. -/
abbrev Mask := List Nat

/-- Modelled from the spec: TopologyModel (section 4.2), missing from the
sources: per-type object counts and the resource mask under each object. -/
structure TopologyModel where
  objectCount : quo_obj_type_t → Nat
  resourceMaskOf : quo_obj_type_t → Nat → Mask

/-- Modelled from the spec: `validate(type, index)` of TopologyModel, missing
from the sources: "true iff `0 ≤ index < objectCount(type)`". -/
def TopologyModel.validate (t : TopologyModel) (type : quo_obj_type_t) (index : Nat) : Bool :=
  decide (index < t.objectCount type)

/-- Modelled from the spec: the lifecycle states of AffinityContext (section
4.1), missing from the sources. -/
inductive Lifecycle where
  | UNINITIALIZED
  | CONSTRUCTED
  | INITIALIZED
  | FINALIZED
  | DESTRUCTED
  deriving DecidableEq, Repr

/-- Modelled from the spec: the context `quo_t` (AffinityContext), whose
definition is missing from the sources: lifecycle state, topology, the LIFO
sequence of saved binding records (top first), and the affinity mask the
provider currently holds for the process (the current binding). -/
structure quo_t where
  state : Lifecycle
  topology : TopologyModel
  stack : List Mask
  cbind : Mask

/-- Modelled from the spec: the answer of the affinity provider to a
set-affinity request, missing from the sources: the request is accepted, or
it is rejected ("system-call failure (affinity provider rejected a get/set)").
For a rejected request `inForce` is the mask in force afterwards; section 7
leaves it indeterminate after a failed pop, so it is an arbitrary input. -/
inductive ProviderAnswer where
  | accepted
  | rejected (inForce : Mask)
  deriving DecidableEq, Repr

/-- Modelled from the spec: `quo_bind_push` (BindingStack.push, section 4.4),
whose body is missing from the sources.  `answer` is the provider's answer
to the one set-affinity request the call makes.  A call outside state
INITIALIZED fails with called-before-init and no effect (the spec names that
error for the states before INITIALIZED and none for the later ones, which no
statement below reaches); an invalid `(type, index)` fails with out-of-range,
stack unchanged; otherwise the current mask is captured and pushed and the
resource mask of the object is applied; if the provider rejects it the
captured record is discarded and the error is returned, "leaving the binding
as it was before the call". -/
def quo_bind_push (q : quo_t) (type : quo_obj_type_t) (obj_index : Nat)
    (answer : ProviderAnswer) : Int × quo_t :=
  if q.state ≠ Lifecycle.INITIALIZED then (QUO_ERR_CALL_BEFORE_INIT, q)
  else if q.topology.validate type obj_index = false then (QUO_ERR_OOR, q)
  else
    let record : Mask := q.cbind
    let pushed : quo_t := { q with stack := record :: q.stack }
    match answer with
    | ProviderAnswer.accepted =>
      (QUO_SUCCESS, { pushed with cbind := q.topology.resourceMaskOf type obj_index })
    | ProviderAnswer.rejected _ =>
      (QUO_ERR_SYS, { pushed with stack := pushed.stack.tail })

/-- Modelled from the spec: `quo_bind_pop` (BindingStack.pop, section 4.4),
whose body is missing from the sources.  `answer` is the provider's answer
to the set-affinity request.  On an empty stack the call fails with
pop-without-push and leaves the binding untouched; otherwise the top record is
removed and its mask re-applied; if the provider rejects it a system error is
reported, the record is consumed all the same, and the current binding is
"in an indeterminate relationship to the record just discarded": it is the
mask the answer carries. -/
def quo_bind_pop (q : quo_t) (answer : ProviderAnswer) : Int × quo_t :=
  if q.state ≠ Lifecycle.INITIALIZED then (QUO_ERR_CALL_BEFORE_INIT, q)
  else
    match q.stack with
    | [] => (QUO_ERR_POP, q)
    | record :: rest =>
      match answer with
      | ProviderAnswer.accepted => (QUO_SUCCESS, { q with stack := rest, cbind := record })
      | ProviderAnswer.rejected inForce => (QUO_ERR_SYS, { q with stack := rest, cbind := inForce })

/-- A call of one of the two binding operations. -/
inductive BindCall where
  | push (type : quo_obj_type_t) (obj_index : Nat)
  | pop
  deriving DecidableEq, Repr

/-- A call together with the provider's answer to its set-affinity request. -/
structure BindStep where
  call : BindCall
  answer : ProviderAnswer
  deriving DecidableEq, Repr

/-- One call on a context: result code and context afterwards. -/
def bind_step (q : quo_t) (s : BindStep) : Int × quo_t :=
  match s.call with
  | BindCall.push type obj_index => quo_bind_push q type obj_index s.answer
  | BindCall.pop => quo_bind_pop q s.answer

/-- A sequence of calls: the final context and the result codes in order. -/
def bind_run (q : quo_t) : List BindStep → quo_t × List Int
  | [] => (q, [])
  | s :: rest =>
    let r := bind_step q s
    let t := bind_run r.2 rest
    (t.1, r.1 :: t.2)

/-- The calls "pushes, then pops": a push per `(type, index, answer)`, then a
pop per answer. -/
def push_then_pop (pushes : List (quo_obj_type_t × Nat × ProviderAnswer))
    (pops : List ProviderAnswer) : List BindStep :=
  (pushes.map fun p => ⟨BindCall.push p.1 p.2.1, p.2.2⟩) ++
    (pops.map fun a => ⟨BindCall.pop, a⟩)

/-- A host with two processing units and one core over unit 0. -/
def sample_topology : TopologyModel :=
  { objectCount := fun t =>
      match t with
      | quo_obj_type_t.QUO_PU => 2
      | _ => 1,
    resourceMaskOf := fun t i =>
      match t with
      | quo_obj_type_t.QUO_PU => [i]
      | quo_obj_type_t.QUO_CORE => [0]
      | _ => [0, 1] }

/-- An initialized context, empty stack, bound to both processing units. -/
def sample_context : quo_t :=
  { state := Lifecycle.INITIALIZED, topology := sample_topology, stack := [], cbind := [0, 1] }

/-! ## Result codes and the error kinds of the specification -/

/-- The nine error enumerators of `quo.h`, in declaration order. -/
def error_codes : List Int :=
  [QUO_ERR, QUO_ERR_SYS, QUO_ERR_OOR, QUO_ERR_INVLD_ARG, QUO_ERR_CALL_BEFORE_INIT,
    QUO_ERR_TOPO, QUO_ERR_MPI, QUO_ERR_NOT_SUPPORTED, QUO_ERR_POP]

/-- The error kinds of section 7 of the specification. -/
inductive ErrorKind where
  | generic
  | systemCall
  | outOfRange
  | invalidArgument
  | calledBeforeInit
  | topology
  | groupCommunication
  | unsupported
  | popWithoutPush
  deriving DecidableEq, Repr

/-- The error kinds in the order in which the specification lists them. -/
def spec_error_kinds : List ErrorKind :=
  [ErrorKind.generic, ErrorKind.systemCall, ErrorKind.outOfRange, ErrorKind.invalidArgument,
    ErrorKind.calledBeforeInit, ErrorKind.topology, ErrorKind.groupCommunication,
    ErrorKind.unsupported, ErrorKind.popWithoutPush]

/-- The enumerator of `quo.h` that reports an error kind. -/
def ErrorKind.code : ErrorKind → Int
  | ErrorKind.generic => QUO_ERR
  | ErrorKind.systemCall => QUO_ERR_SYS
  | ErrorKind.outOfRange => QUO_ERR_OOR
  | ErrorKind.invalidArgument => QUO_ERR_INVLD_ARG
  | ErrorKind.calledBeforeInit => QUO_ERR_CALL_BEFORE_INIT
  | ErrorKind.topology => QUO_ERR_TOPO
  | ErrorKind.groupCommunication => QUO_ERR_MPI
  | ErrorKind.unsupported => QUO_ERR_NOT_SUPPORTED
  | ErrorKind.popWithoutPush => QUO_ERR_POP
/-! ## Lemmas on the table of actions and the two loops -/

theorem getD_table (pre rest : List action) (a : action) (k : Nat) :
    ((pre ++ a :: rest).map some ++ List.replicate k none).getD pre.length none = some a := by
  rw [List.getD_eq_getElem?_getD, List.map_append, List.append_assoc,
    List.getElem?_append_right (by simp)]
  simp

theorem getD_table_end (pre : List action) (k : Nat) :
    (pre.map some ++ List.replicate k (none : Option action)).getD pre.length none = none := by
  rw [List.getD_eq_getElem?_getD]
  by_cases hk : k = 0
  · subst hk; simp
  · rw [List.getElem?_append_right (by simp)]
    simp only [List.length_map, Nat.sub_self, List.getElem?_replicate]
    split <;> rfl

theorem display_from_table (cfg : BuildConfig) (sb : Bool) (rest : List action) :
    ∀ (pre : List action) (k fuel : Nat), pre ≠ [] → pre.length + rest.length ≤ max_flags →
      rest.length < fuel →
      display_from cfg sb ((pre ++ rest).map some ++ List.replicate k none) fuel pre.length =
        (rest.map fun f => " ".data ++ f.call cfg sb).flatten := by
  induction rest with
  | nil =>
    intro pre k fuel _ _ hf
    obtain ⟨f, rfl⟩ : ∃ f, fuel = f + 1 := ⟨fuel - 1, by omega⟩
    simp only [List.append_nil, display_from, getD_table_end]
    simp
  | cons a r ih =>
    intro pre k fuel hpre hlen hf
    obtain ⟨f, rfl⟩ : ∃ f, fuel = f + 1 := ⟨fuel - 1, by omega⟩
    have hne : pre.length ≠ 0 := by
      intro h; exact hpre (List.length_eq_zero.mp h)
    have hlt : pre.length < max_flags := by simp at hlen; omega
    simp only [display_from, getD_table, hlt, if_true, hne, if_false]
    have := ih (pre ++ [a]) k f (by simp) (by simp at hlen ⊢; omega) (by simp at hf; omega)
    simp only [List.append_assoc, List.singleton_append, List.length_append, List.length_singleton] at this
    rw [this]
    simp

theorem flag_fn_call (cfg : BuildConfig) (c : Int) (h : c ∈ flag_options) :
    (flag_fn c).call cfg false = flag_string cfg c := by
  simp only [flag_options, List.mem_cons, List.mem_singleton, List.not_mem_nil, or_false] at h
  rcases h with h | h | h | h | h <;> subst h <;> rfl

theorem set_table (done : List action) (a : action) (k : Nat) :
    (done.map some ++ List.replicate (k + 1) none).set done.length (some a) =
      (done ++ [a]).map some ++ List.replicate k none := by
  induction done with
  | nil => simp [List.replicate_succ]
  | cons d ds ih => simpa using ih

theorem getopt_loop_flags (cfg : BuildConfig) (opts : List ParsedOpt) :
    ∀ (done : List action) (s : MainState), (∀ o ∈ opts, o.c ∈ flag_options) →
      s.actions = done.map some ++ List.replicate (max_flags - done.length) none →
      s.flagi = done.length → done.length + opts.length ≤ max_flags →
      getopt_loop cfg opts s =
        ({ s with
            actions := (done ++ opts.map fun o => flag_fn o.c).map some ++
              List.replicate (max_flags - (done.length + opts.length)) none,
            flagi := done.length + opts.length }, false) := by
  induction opts with
  | nil =>
    intro done s _ ha hf _
    obtain ⟨a, f, rc, tl, sb, so, se⟩ := s
    simp only at ha hf
    subst ha hf
    simp [getopt_loop]
  | cons o rest ih =>
    intro done s hall ha hf hlen
    have ho : o.c ∈ flag_options := hall o (List.mem_cons_self _ _)
    have hrest : ∀ x ∈ rest, x.c ∈ flag_options := fun x hx => hall x (List.mem_cons_of_mem _ hx)
    simp only [List.length_cons] at hlen
    have hmod : done.length % max_flags = done.length := Nat.mod_eq_of_lt (by omega)
    have hk : max_flags - done.length = (max_flags - (done.length + 1)) + 1 := by omega
    have hrec : (s.record (flag_fn o.c)).actions =
        (done ++ [flag_fn o.c]).map some ++
          List.replicate (max_flags - (done ++ [flag_fn o.c]).length) none := by
      simp only [MainState.record, hf, hmod, ha, List.length_append, List.length_singleton]
      rw [hk, set_table]
    have hstep : getopt_loop cfg (o :: rest) s = getopt_loop cfg rest (s.record (flag_fn o.c)) := by
      simp only [flag_options, List.mem_cons, List.mem_singleton, List.not_mem_nil, or_false] at ho
      rcases ho with h | h | h | h | h <;>
        simp [getopt_loop, h, flag_fn, CFLAGS, CFLAGS_ONLY_I, LIBS, LIBS_ONLY_LUC, LIBS_ONLY_L,
          HELP, CONFIG]
    rw [hstep, ih (done ++ [flag_fn o.c]) (s.record (flag_fn o.c)) hrest hrec
      (by simp [MainState.record, hf]) (by simp; omega)]
    simp [MainState.record, Nat.add_assoc, Nat.add_comm 1]

theorem intercalate_cons (sep x : List Char) (xs : List (List Char)) :
    List.intercalate sep (x :: xs) = x ++ (xs.map fun y => sep ++ y).flatten := by
  induction xs generalizing x with
  | nil => simp [List.intercalate]
  | cons y ys ih =>
    have h := ih y
    simp only [List.intercalate, List.intersperse, List.flatten_cons, List.map_cons] at h ⊢
    rw [h]
    simp

theorem display_from_zero (cfg : BuildConfig) (sb : Bool) (fns : List action) (k fuel : Nat)
    (hlen : fns.length ≤ max_flags) (hfuel : fns.length < fuel) :
    display_from cfg sb (fns.map some ++ List.replicate k none) fuel 0 =
      List.intercalate " ".data (fns.map fun f => f.call cfg sb) := by
  obtain ⟨f, rfl⟩ : ∃ f, fuel = f + 1 := ⟨fuel - 1, by omega⟩
  cases fns with
  | nil =>
    have := getD_table_end [] k
    simp only [List.map_nil, List.length_nil] at this
    simp [display_from, this, List.intercalate]
  | cons a r =>
    have h0 := getD_table [] r a k
    simp only [List.nil_append, List.length_nil] at h0
    have h1 := display_from_table cfg sb r [a] k f (by simp)
      (by simpa [Nat.add_comm] using hlen) (by simp at hfuel; omega)
    simp only [List.singleton_append, List.length_singleton] at h1
    have hpos : 0 < max_flags := by decide
    simp only [display_from, h0, hpos, if_true, h1]
    rw [List.map_cons, intercalate_cons]
    simp [List.map_map, Function.comp_def]

theorem continues_cases {c : Int} (h : continues c) :
    c = CFLAGS ∨ c = CFLAGS_ONLY_I ∨ c = LIBS ∨ c = LIBS_ONLY_LUC ∨ c = LIBS_ONLY_L ∨
      c = LANG ∨ c = STATIC := by
  obtain ⟨hmem, hh, hc⟩ := h
  simp only [recognized_options, long_opts, List.map_cons, List.map_nil, List.mem_cons,
    List.mem_singleton, List.not_mem_nil, or_false] at hmem
  tauto

theorem getopt_loop_continues (cfg : BuildConfig) (pre : List ParsedOpt) :
    ∀ (rest : List ParsedOpt) (s : MainState), (∀ o ∈ pre, continues o.c) →
      ∃ s1 : MainState, getopt_loop cfg (pre ++ rest) s = getopt_loop cfg rest s1 ∧
        s1.stdout = s.stdout ∧ s1.stderr = s.stderr ∧ s1.rc = s.rc := by
  induction pre with
  | nil => intro rest s _; exact ⟨s, rfl, rfl, rfl, rfl⟩
  | cons o pre ih =>
    intro rest s hall
    have hrest : ∀ x ∈ pre, continues x.c := fun x hx => hall x (List.mem_cons_of_mem _ hx)
    have hstep : ∃ s0 : MainState,
        getopt_loop cfg (o :: (pre ++ rest)) s = getopt_loop cfg (pre ++ rest) s0 ∧
          s0.stdout = s.stdout ∧ s0.stderr = s.stderr ∧ s0.rc = s.rc := by
      rcases continues_cases (hall o (List.mem_cons_self _ _)) with h | h | h | h | h | h | h
      · exact ⟨s.record action.get_cflags, by simp [getopt_loop, h, CFLAGS, HELP, CONFIG],
          rfl, rfl, rfl⟩
      · exact ⟨s.record action.get_cflags_only_I,
          by simp [getopt_loop, h, CFLAGS, CFLAGS_ONLY_I, HELP, CONFIG], rfl, rfl, rfl⟩
      · exact ⟨s.record action.get_libs,
          by simp [getopt_loop, h, CFLAGS, CFLAGS_ONLY_I, LIBS, HELP, CONFIG], rfl, rfl, rfl⟩
      · exact ⟨s.record action.get_libs_only_L,
          by simp [getopt_loop, h, CFLAGS, CFLAGS_ONLY_I, LIBS, LIBS_ONLY_L, LIBS_ONLY_LUC,
            HELP, CONFIG], rfl, rfl, rfl⟩
      · exact ⟨s.record action.get_libs_only_l,
          by simp [getopt_loop, h, CFLAGS, CFLAGS_ONLY_I, LIBS, LIBS_ONLY_L, HELP, CONFIG],
          rfl, rfl, rfl⟩
      · exact ⟨s.record action.set_lang,
          by simp [getopt_loop, h, CFLAGS, CFLAGS_ONLY_I, LIBS, LIBS_ONLY_L, LIBS_ONLY_LUC,
            LANG, HELP, CONFIG], rfl, rfl, rfl⟩
      · exact ⟨{ s with static_build := true },
          by simp [getopt_loop, h, CFLAGS, CFLAGS_ONLY_I, LIBS, LIBS_ONLY_L, LIBS_ONLY_LUC,
            LANG, STATIC, HELP, CONFIG], rfl, rfl, rfl⟩
    obtain ⟨s0, h0, ho, he, hr⟩ := hstep
    obtain ⟨s1, h1, ho1, he1, hr1⟩ := ih rest s0 hrest
    exact ⟨s1, by rw [List.cons_append, h0, h1], ho1.trans ho, he1.trans he, hr1.trans hr⟩

theorem getopt_loop_target_lang (cfg : BuildConfig) (opts : List ParsedOpt) :
    ∀ s : MainState, (getopt_loop cfg opts s).1.target_lang = s.target_lang := by
  induction opts with
  | nil => intro s; rfl
  | cons o rest ih =>
    intro s
    simp only [getopt_loop]
    repeat' split
    all_goals first | rfl | exact (ih _).trans rfl


/-! ## Truncation by `snprintf` -/

theorem take_append_take (n : Nat) (a b : List Char) :
    (a ++ b.take n).take n = (a ++ b).take n := by
  rw [List.take_append_eq_append_take, List.take_append_eq_append_take, List.take_take]
  congr 2
  omega

theorem get_libs_take (cfg : BuildConfig) (sb : Bool) :
    get_libs cfg sb = (libs_text cfg sb).take (cfg.PATH_MAX - 2) := by
  have h : cfg.PATH_MAX - 1 - 1 = cfg.PATH_MAX - 2 := by omega
  simp only [get_libs, get_libs_only_l, get_libs_only_L, snprintf, libs_text, libs_only_l_text, h]
  rw [← List.append_assoc, take_append_take]
  simp

/-! ## `main` in terms of the result of the option loop -/

theorem main_out (cfg : BuildConfig) (argv : CommandLine) (s1 : MainState)
    (h : getopt_loop cfg argv.opts main_start = (s1, true)) :
    main cfg argv =
      { stdout := s1.stdout, stderr := s1.stderr,
        status := if QUO_SUCCESS = s1.rc then EXIT_SUCCESS else EXIT_FAILURE,
        target_lang := s1.target_lang, static_build := s1.static_build } := by
  unfold main
  rw [h]
  rfl

theorem main_leftover (cfg : BuildConfig) (opts : List ParsedOpt) (word : List Char)
    (s1 : MainState) (h : getopt_loop cfg opts main_start = (s1, false)) :
    main cfg ⟨opts, some word⟩ =
      { stdout := s1.stdout ++ show_usage cfg,
        stderr := s1.stderr ++ ("unrecognized input: ".data ++ [Char.ofNat 34] ++ word ++
          [Char.ofNat 34] ++ "\n".data),
        status := EXIT_FAILURE,
        target_lang := s1.target_lang, static_build := s1.static_build } := by
  unfold main
  simp only [h]
  rfl

theorem main_display (cfg : BuildConfig) (opts : List ParsedOpt) (s1 : MainState)
    (h : getopt_loop cfg opts main_start = (s1, false)) :
    main cfg ⟨opts, none⟩ =
      { stdout := s1.stdout ++ display_from cfg s1.static_build s1.actions (max_flags + 1) 0,
        stderr := s1.stderr,
        status := if QUO_SUCCESS = s1.rc then EXIT_SUCCESS else EXIT_FAILURE,
        target_lang := s1.target_lang, static_build := s1.static_build } := by
  unfold main
  simp only [h]
  rfl

set_option maxRecDepth 100000

/-! ## The statements about `main` -/

/-- C1 (as amended): for every list of at most 64 flag options (`--cflags`,
`--cflags-only-I`, `--libs`, `--libs-only-L`, `--libs-only-l`) and nothing
else, standard output is exactly the flag strings of the options, one per
occurrence, in command-line order, joined by single spaces, and the exit
status is success. -/
theorem main_flags_upto_max_flags (cfg : BuildConfig) (opts : List ParsedOpt)
    (hflags : ∀ o ∈ opts, o.c ∈ flag_options) (hlen : opts.length ≤ max_flags) :
    (main cfg ⟨opts, none⟩).stdout =
        List.intercalate " ".data (opts.map fun o => flag_string cfg o.c) ∧
      (main cfg ⟨opts, none⟩).status = EXIT_SUCCESS := by
  have hloop := getopt_loop_flags cfg opts [] main_start hflags (by simp [main_start]) rfl
    (by simpa using hlen)
  have hcall : (opts.map fun o => (flag_fn o.c).call cfg false) =
      opts.map fun o => flag_string cfg o.c :=
    List.map_congr_left fun o ho => flag_fn_call cfg o.c (hflags o ho)
  rw [main_display cfg opts _ hloop]
  refine ⟨?_, rfl⟩
  simp only [main_start, List.nil_append, List.length_nil, Nat.zero_add]
  rw [display_from_zero cfg false _ _ _ (by simpa using hlen) (by simp; omega), List.map_map]
  exact congrArg _ hcall

/-- Witness of C1 (as amended): `--cflags --libs`. -/
theorem main_flags_upto_max_flags_witness :
    (∀ o ∈ [(⟨CFLAGS, []⟩ : ParsedOpt), ⟨LIBS, []⟩], o.c ∈ flag_options) ∧
      [(⟨CFLAGS, []⟩ : ParsedOpt), ⟨LIBS, []⟩].length ≤ max_flags ∧
      (main sample_config ⟨[⟨CFLAGS, []⟩, ⟨LIBS, []⟩], none⟩).stdout =
        List.intercalate " ".data
          ([(⟨CFLAGS, []⟩ : ParsedOpt), ⟨LIBS, []⟩].map fun o => flag_string sample_config o.c) ∧
      (main sample_config ⟨[⟨CFLAGS, []⟩, ⟨LIBS, []⟩], none⟩).status = EXIT_SUCCESS :=
  ⟨by decide, by decide,
    main_flags_upto_max_flags sample_config [⟨CFLAGS, []⟩, ⟨LIBS, []⟩] (by decide) (by decide)⟩

/-- C1 fails as stated: with 65 flag options (64 times `--cflags`, then
`--libs-only-L`) the table slot 0 is overwritten by the last option, so the
output is not the 65 flag strings in command-line order: it is 64 strings and
starts with the `-L` string of the last option. -/
theorem main_flags_65_wraps :
    (∀ o ∈ sixty_five_flags, o.c ∈ flag_options) ∧
      (main sample_config ⟨sixty_five_flags, none⟩).stdout ≠
        List.intercalate " ".data
          (sixty_five_flags.map fun o => flag_string sample_config o.c) ∧
      (main sample_config ⟨sixty_five_flags, none⟩).stdout.take 24 =
        "-L/usr/lib -I/usr/include".data.take 24 ∧
      (main sample_config ⟨sixty_five_flags, none⟩).stdout.length = 10 + 63 * 15 := by
  decide

/-- C2 (as amended): when the first option that is not a flag, `--lang` or
`--static` option is an unrecognized one, or when every option is of these
kinds and a stray non-option argument is left over, standard output is exactly
the usage text and the exit status is failure. -/
theorem main_rejects (cfg : BuildConfig) (pre rest : List ParsedOpt)
    (leftover : Option (List Char)) (hpre : ∀ o ∈ pre, continues o.c)
    (hbad : (∃ bad post, rest = bad :: post ∧ unrecognized bad.c) ∨
      (rest = [] ∧ leftover.isSome = true)) :
    (main cfg ⟨pre ++ rest, leftover⟩).stdout = show_usage cfg ∧
      (main cfg ⟨pre ++ rest, leftover⟩).status = EXIT_FAILURE := by
  obtain ⟨s1, hloop, hout, _, hrc⟩ := getopt_loop_continues cfg pre rest main_start hpre
  rcases hbad with ⟨bad, post, rfl, hmem, hne⟩ | ⟨rfl, hleft⟩
  · simp only [recognized_options, long_opts, List.map_cons, List.map_nil, List.mem_cons,
      List.mem_singleton, List.not_mem_nil, or_false, not_or] at hmem
    obtain ⟨h1, h2, h3, h4, h5, h6, h7, h8, h9⟩ := hmem
    have hstep : getopt_loop cfg (bad :: post) s1 =
        ({ s1 with stdout := s1.stdout ++ show_usage cfg, rc := QUO_ERR_INVLD_ARG }, true) := by
      simp only [getopt_loop, hne, h1, h2, h3, h4, h5, h6, h7, h8, h9, if_false]
    rw [main_out cfg ⟨pre ++ bad :: post, leftover⟩ _ (hloop.trans hstep)]
    exact ⟨by simp only [hout, main_start, List.nil_append], rfl⟩
  · obtain ⟨word, rfl⟩ := Option.isSome_iff_exists.mp hleft
    have hend : getopt_loop cfg [] s1 = (s1, false) := rfl
    rw [main_leftover cfg (pre ++ []) word s1 (hloop.trans hend)]
    exact ⟨by simp only [hout, main_start, List.nil_append], rfl⟩

/-- Witness of C2 (as amended): `--cflags --bogus --help`. -/
theorem main_rejects_witness :
    (∀ o ∈ [(⟨CFLAGS, []⟩ : ParsedOpt)], continues o.c) ∧
      ((∃ bad post, [(⟨63, []⟩ : ParsedOpt), ⟨HELP, []⟩] = bad :: post ∧ unrecognized bad.c) ∨
        ([(⟨63, []⟩ : ParsedOpt), ⟨HELP, []⟩] = [] ∧ (none : Option (List Char)).isSome = true)) ∧
      (main sample_config ⟨[⟨CFLAGS, []⟩] ++ [⟨63, []⟩, ⟨HELP, []⟩], none⟩).stdout =
        show_usage sample_config ∧
      (main sample_config ⟨[⟨CFLAGS, []⟩] ++ [⟨63, []⟩, ⟨HELP, []⟩], none⟩).status =
        EXIT_FAILURE :=
  ⟨by decide, Or.inl ⟨⟨63, []⟩, [⟨HELP, []⟩], rfl, by decide⟩,
    main_rejects sample_config [⟨CFLAGS, []⟩] [⟨63, []⟩, ⟨HELP, []⟩] none (by decide)
      (Or.inl ⟨⟨63, []⟩, [⟨HELP, []⟩], rfl, by decide⟩)⟩

/-- C2 fails as stated: for `--config --bogus` (an unrecognized option after
`--config`) the program prints the configuration report, not the usage text,
and exits with success; for `--help` with a stray word `foo` it exits with
success too. -/
theorem main_config_then_unrecognized :
    unrecognized 63 ∧
      (main sample_config ⟨[⟨CONFIG, []⟩, ⟨63, []⟩], none⟩).stdout = show_config sample_config ∧
      (main sample_config ⟨[⟨CONFIG, []⟩, ⟨63, []⟩], none⟩).stdout ≠ show_usage sample_config ∧
      (main sample_config ⟨[⟨CONFIG, []⟩, ⟨63, []⟩], none⟩).status = EXIT_SUCCESS ∧
      (main sample_config ⟨[⟨CONFIG, []⟩, ⟨63, []⟩], none⟩).status ≠ EXIT_FAILURE ∧
      (main sample_config ⟨[⟨HELP, []⟩], some "foo".data⟩).status ≠ EXIT_FAILURE := by
  decide

/-- C3: when `--help` or `--config` occurs and every option before its first
occurrence is recognized, standard output is exactly the usage text (for
`--help`) or exactly the configuration report (for `--config`), nothing is
written to standard error, and the exit status is success, whatever flag
options came before and whatever follows. -/
theorem main_help_config_short_circuit (cfg : BuildConfig) (pre post : List ParsedOpt)
    (stop : ParsedOpt) (leftover : Option (List Char)) (hpre : ∀ o ∈ pre, continues o.c)
    (hstop : stop.c = HELP ∨ stop.c = CONFIG) :
    (main cfg ⟨pre ++ stop :: post, leftover⟩).stdout =
        (if stop.c = HELP then show_usage cfg else show_config cfg) ∧
      (main cfg ⟨pre ++ stop :: post, leftover⟩).stderr = [] ∧
      (main cfg ⟨pre ++ stop :: post, leftover⟩).status = EXIT_SUCCESS := by
  obtain ⟨s1, hloop, hout, herr, hrc⟩ :=
    getopt_loop_continues cfg pre (stop :: post) main_start hpre
  have h1 : HELP ≠ -1 := by decide
  have h2 : CONFIG ≠ -1 := by decide
  have h3 : CONFIG ≠ HELP := by decide
  rcases hstop with h | h
  · have hstep : getopt_loop cfg (stop :: post) s1 =
        ({ s1 with stdout := s1.stdout ++ show_usage cfg }, true) := by
      simp only [getopt_loop, h, h1, if_false, if_true]
    rw [main_out cfg ⟨pre ++ stop :: post, leftover⟩ _ (hloop.trans hstep)]
    simp only [h, if_true, hout, herr, hrc, main_start, List.nil_append, true_and]
  · have hstep : getopt_loop cfg (stop :: post) s1 =
        ({ s1 with stdout := s1.stdout ++ show_config cfg }, true) := by
      simp only [getopt_loop, h, h2, h3, if_false, if_true]
    rw [main_out cfg ⟨pre ++ stop :: post, leftover⟩ _ (hloop.trans hstep)]
    simp only [h, h3, if_false, if_true, hout, herr, hrc, main_start, List.nil_append, true_and]

/-- Witness of C3: `--libs --static --config --cflags --bogus` and a stray word. -/
theorem main_help_config_short_circuit_witness :
    (∀ o ∈ [(⟨LIBS, []⟩ : ParsedOpt), ⟨STATIC, []⟩], continues o.c) ∧
      ((⟨CONFIG, []⟩ : ParsedOpt).c = HELP ∨ (⟨CONFIG, []⟩ : ParsedOpt).c = CONFIG) ∧
      (main sample_config
        ⟨[⟨LIBS, []⟩, ⟨STATIC, []⟩] ++ ⟨CONFIG, []⟩ :: [⟨CFLAGS, []⟩, ⟨63, []⟩],
          some "foo".data⟩).stdout =
        (if (⟨CONFIG, []⟩ : ParsedOpt).c = HELP then show_usage sample_config
          else show_config sample_config) ∧
      (main sample_config
        ⟨[⟨LIBS, []⟩, ⟨STATIC, []⟩] ++ ⟨CONFIG, []⟩ :: [⟨CFLAGS, []⟩, ⟨63, []⟩],
          some "foo".data⟩).stderr = [] ∧
      (main sample_config
        ⟨[⟨LIBS, []⟩, ⟨STATIC, []⟩] ++ ⟨CONFIG, []⟩ :: [⟨CFLAGS, []⟩, ⟨63, []⟩],
          some "foo".data⟩).status = EXIT_SUCCESS :=
  ⟨by decide, by decide,
    main_help_config_short_circuit sample_config [⟨LIBS, []⟩, ⟨STATIC, []⟩]
      [⟨CFLAGS, []⟩, ⟨63, []⟩] ⟨CONFIG, []⟩ (some "foo".data) (by decide) (by decide)⟩

/-- C4: for both settings of the static-build flag, `get_libs` is the text
`get_libs_only_L`, one space, `-lquo`, one space, then `QUO_BUILD_LIBS` (static)
or nothing (otherwise), cut to its first `PATH_MAX - 2` characters; when that
text has at most `PATH_MAX - 2` characters `get_libs` is the whole text and
`get_libs_only_l` is the whole `-l` part. -/
theorem get_libs_is_L_space_l (cfg : BuildConfig) (static_build : Bool) :
    get_libs_only_L cfg = "-L".data ++ cfg.QUO_BUILD_PREFIX ++ "/lib".data ∧
      get_libs cfg static_build = (libs_text cfg static_build).take (cfg.PATH_MAX - 2) ∧
      get_libs cfg static_build =
        (get_libs_only_L cfg ++ " ".data ++ get_libs_only_l cfg static_build).take
          (cfg.PATH_MAX - 2) ∧
      (if (libs_text cfg static_build).length ≤ cfg.PATH_MAX - 2 then
        get_libs cfg static_build =
            get_libs_only_L cfg ++ " ".data ++ get_libs_only_l cfg static_build ∧
          get_libs_only_l cfg static_build = libs_only_l_text cfg static_build ∧
          get_libs cfg static_build = libs_text cfg static_build
       else
        get_libs cfg static_build = (libs_text cfg static_build).take (cfg.PATH_MAX - 2)) := by
  have h : cfg.PATH_MAX - 1 - 1 = cfg.PATH_MAX - 2 := by omega
  refine ⟨rfl, get_libs_take cfg static_build, ?_, ?_⟩
  · simp [get_libs, snprintf, h]
  · split
    · rename_i hle
      have hl : (libs_only_l_text cfg static_build).length ≤ cfg.PATH_MAX - 2 := by
        simp only [libs_text, List.length_append] at hle
        omega
      have hl2 : get_libs_only_l cfg static_build = libs_only_l_text cfg static_build := by
        simp only [get_libs_only_l, snprintf, h]
        exact List.take_of_length_le hl
      have hall : get_libs cfg static_build = libs_text cfg static_build := by
        rw [get_libs_take]
        exact List.take_of_length_le hle
      refine ⟨?_, hl2, hall⟩
      rw [hall, hl2]
      rfl
    · exact get_libs_take cfg static_build

/-- C5 (the code at the failing input): after `--lang LANG`, whatever `LANG`
is (`C++`, `Fortran`, ...) and whatever follows, the target language is still
`LANG_C`, which is neither `LANG_CPLUSPLUS` nor `LANG_FORTRAN`; `set_lang`
only contributes an empty string to the output. -/
theorem main_lang_leaves_target_lang (cfg : BuildConfig) (optarg : List Char)
    (rest : List ParsedOpt) (leftover : Option (List Char)) :
    (main cfg ⟨⟨LANG, optarg⟩ :: rest, leftover⟩).target_lang = LANG_C ∧
      LANG_C ≠ LANG_CPLUSPLUS ∧ LANG_C ≠ LANG_FORTRAN ∧
      (main sample_config ⟨[⟨LANG, "C++".data⟩, ⟨CFLAGS, []⟩], none⟩).stdout =
        " -I/usr/include".data := by
  refine ⟨?_, by decide, by decide, by decide⟩
  have h := getopt_loop_target_lang cfg (⟨LANG, optarg⟩ :: rest) main_start
  rcases hl : getopt_loop cfg (⟨LANG, optarg⟩ :: rest) main_start with ⟨s1, out⟩
  rw [hl] at h
  cases out with
  | true => rw [main_out cfg ⟨_, leftover⟩ s1 hl]; exact h
  | false =>
    cases leftover with
    | none => rw [main_display cfg _ s1 hl]; exact h
    | some word => rw [main_leftover cfg _ word s1 hl]; exact h

/-! ## The binding stack -/

theorem bind_run_append (q : quo_t) (a b : List BindStep) :
    bind_run q (a ++ b) =
      ((bind_run (bind_run q a).1 b).1, (bind_run q a).2 ++ (bind_run (bind_run q a).1 b).2) := by
  induction a generalizing q with
  | nil => simp [bind_run]
  | cons s rest ih => simp [bind_run, ih]

theorem quo_bind_push_accepted (q : quo_t) (type : quo_obj_type_t) (obj_index : Nat)
    (hinit : q.state = Lifecycle.INITIALIZED)
    (hvalid : q.topology.validate type obj_index = true) :
    quo_bind_push q type obj_index ProviderAnswer.accepted =
      (QUO_SUCCESS, { q with stack := q.cbind :: q.stack,
                             cbind := q.topology.resourceMaskOf type obj_index }) := by
  simp [quo_bind_push, hinit, hvalid]

theorem quo_bind_pop_accepted (q : quo_t) (record : Mask) (rest : List Mask)
    (hinit : q.state = Lifecycle.INITIALIZED) (hstack : q.stack = record :: rest) :
    quo_bind_pop q ProviderAnswer.accepted =
      (QUO_SUCCESS, { q with stack := rest, cbind := record }) := by
  simp [quo_bind_pop, hinit, hstack]

theorem push_then_pop_accepting (pushes : List (quo_obj_type_t × Nat × ProviderAnswer)) :
    ∀ (q : quo_t) (pops : List ProviderAnswer), q.state = Lifecycle.INITIALIZED →
      (∀ p ∈ pushes, q.topology.validate p.1 p.2.1 = true) →
      (∀ p ∈ pushes, p.2.2 = ProviderAnswer.accepted) →
      (∀ a ∈ pops, a = ProviderAnswer.accepted) → pops.length = pushes.length →
      (bind_run q (push_then_pop pushes pops)).1 = q ∧
        (bind_run q (push_then_pop pushes pops)).2 =
          List.replicate (pushes.length + pops.length) QUO_SUCCESS := by
  induction pushes with
  | nil =>
    intro q pops _ _ _ _ hlen
    have : pops = [] := List.length_eq_zero.mp hlen
    subst this
    exact ⟨rfl, rfl⟩
  | cons p ps ih =>
    intro q pops hinit hvalid hpush hpop hlen
    have hne : pops ≠ [] := by
      intro h; rw [h] at hlen; simp at hlen
    obtain ⟨inner, last, hcat⟩ := (List.eq_nil_or_concat pops).resolve_left hne
    rw [List.concat_eq_append] at hcat
    subst hcat
    have hlen1 : inner.length = ps.length := by simpa using hlen
    have hlast : last = ProviderAnswer.accepted := hpop last (by simp)
    have hp : p.2.2 = ProviderAnswer.accepted := hpush p (List.mem_cons_self _ _)
    have hshape : push_then_pop (p :: ps) (inner ++ [last]) =
        ⟨BindCall.push p.1 p.2.1, ProviderAnswer.accepted⟩ ::
          (push_then_pop ps inner ++ [⟨BindCall.pop, ProviderAnswer.accepted⟩]) := by
      simp [push_then_pop, hlast, hp]
    have hq1 := quo_bind_push_accepted q p.1 p.2.1 hinit (hvalid p (List.mem_cons_self _ _))
    obtain ⟨hctx, hcodes⟩ := ih
      { q with stack := q.cbind :: q.stack, cbind := q.topology.resourceMaskOf p.1 p.2.1 }
      inner hinit (fun x hx => hvalid x (List.mem_cons_of_mem _ hx))
      (fun x hx => hpush x (List.mem_cons_of_mem _ hx))
      (fun a ha => hpop a (by simp [ha])) hlen1
    have hq2 := quo_bind_pop_accepted
      { q with stack := q.cbind :: q.stack, cbind := q.topology.resourceMaskOf p.1 p.2.1 }
      q.cbind q.stack hinit rfl
    rw [hshape]
    simp only [bind_run, bind_run_append, bind_step, hq1, hctx, hcodes, hq2]
    refine ⟨?_, ?_⟩
    · trivial
    rw [List.eq_replicate_iff]
    constructor
    · simp; omega
    · intro b hb
      simp only [List.mem_cons, List.mem_append, List.mem_replicate, List.not_mem_nil,
        or_false] at hb
      rcases hb with h | h | h
      · exact h
      · exact h.2
      · exact h

/-- C6: for every N and every sequence of N `quo_bind_push` calls with valid
(type, index) pairs followed by N `quo_bind_pop` calls on an initialized
context, the affinity provider accepting each request, all 2N calls return
`QUO_SUCCESS` and the final current binding equals the binding observed
immediately before the first push; the whole context, stack of saved records
included, is as before. -/
theorem bind_push_pop_restores (q : quo_t)
    (pushes : List (quo_obj_type_t × Nat × ProviderAnswer)) (pops : List ProviderAnswer)
    (hinit : q.state = Lifecycle.INITIALIZED)
    (hvalid : ∀ p ∈ pushes, q.topology.validate p.1 p.2.1 = true)
    (hpush : ∀ p ∈ pushes, p.2.2 = ProviderAnswer.accepted)
    (hpop : ∀ a ∈ pops, a = ProviderAnswer.accepted)
    (hlen : pops.length = pushes.length) :
    (bind_run q (push_then_pop pushes pops)).1.cbind = q.cbind ∧
      (bind_run q (push_then_pop pushes pops)).1 = q ∧
      (bind_run q (push_then_pop pushes pops)).2 =
        List.replicate (pushes.length + pops.length) QUO_SUCCESS := by
  obtain ⟨hctx, hcodes⟩ := push_then_pop_accepting pushes q pops hinit hvalid hpush hpop hlen
  exact ⟨by rw [hctx], hctx, hcodes⟩

/-- Witness of C6: push the core, push unit 1, pop twice, on a context bound
to both units. -/
theorem bind_push_pop_restores_witness :
    sample_context.state = Lifecycle.INITIALIZED ∧
      (∀ p ∈ [(quo_obj_type_t.QUO_CORE, 0, ProviderAnswer.accepted),
          (quo_obj_type_t.QUO_PU, 1, ProviderAnswer.accepted)],
        sample_context.topology.validate p.1 p.2.1 = true) ∧
      (∀ p ∈ [(quo_obj_type_t.QUO_CORE, 0, ProviderAnswer.accepted),
          (quo_obj_type_t.QUO_PU, 1, ProviderAnswer.accepted)],
        p.2.2 = ProviderAnswer.accepted) ∧
      (∀ a ∈ [ProviderAnswer.accepted, ProviderAnswer.accepted], a = ProviderAnswer.accepted) ∧
      [ProviderAnswer.accepted, ProviderAnswer.accepted].length =
        [(quo_obj_type_t.QUO_CORE, 0, ProviderAnswer.accepted),
          (quo_obj_type_t.QUO_PU, 1, ProviderAnswer.accepted)].length ∧
      (bind_run sample_context (push_then_pop
          [(quo_obj_type_t.QUO_CORE, 0, ProviderAnswer.accepted),
            (quo_obj_type_t.QUO_PU, 1, ProviderAnswer.accepted)]
          [ProviderAnswer.accepted, ProviderAnswer.accepted])).1.cbind = sample_context.cbind ∧
      (bind_run sample_context (push_then_pop
          [(quo_obj_type_t.QUO_CORE, 0, ProviderAnswer.accepted),
            (quo_obj_type_t.QUO_PU, 1, ProviderAnswer.accepted)]
          [ProviderAnswer.accepted, ProviderAnswer.accepted])).1 = sample_context ∧
      (bind_run sample_context (push_then_pop
          [(quo_obj_type_t.QUO_CORE, 0, ProviderAnswer.accepted),
            (quo_obj_type_t.QUO_PU, 1, ProviderAnswer.accepted)]
          [ProviderAnswer.accepted, ProviderAnswer.accepted])).2 =
        List.replicate (2 + 2) QUO_SUCCESS :=
  ⟨rfl, by decide, by decide, by decide, rfl,
    bind_push_pop_restores sample_context
      [(quo_obj_type_t.QUO_CORE, 0, ProviderAnswer.accepted),
        (quo_obj_type_t.QUO_PU, 1, ProviderAnswer.accepted)]
      [ProviderAnswer.accepted, ProviderAnswer.accepted]
      rfl (by decide) (by decide) (by decide) rfl⟩

/-! ## Result codes -/

/-- C7: `QUO_SUCCESS` is 0; the nine error codes of `quo.h` are pairwise
distinct and none is `QUO_SUCCESS`; taken in declaration order they are the
codes of the nine error kinds in the order of the specification, and the
assignment of a code to a kind is one to one. -/
theorem result_codes_distinct_and_ordered :
    QUO_SUCCESS = 0 ∧ error_codes.Nodup ∧ QUO_SUCCESS ∉ error_codes ∧
      error_codes.length = 9 ∧ spec_error_kinds.length = 9 ∧ spec_error_kinds.Nodup ∧
      (∀ k : ErrorKind, k ∈ spec_error_kinds) ∧
      spec_error_kinds.map ErrorKind.code = error_codes ∧
      error_codes = [1, 2, 3, 4, 5, 6, 7, 8, 9] ∧
      Function.Injective ErrorKind.code ∧
      (∀ k : ErrorKind, k.code ≠ QUO_SUCCESS) := by
  refine ⟨rfl, by decide, by decide, rfl, rfl, by decide, ?_, rfl, rfl, ?_, ?_⟩
  · intro k; cases k <;> decide
  · intro a b h; cases a <;> cases b <;> first | rfl | exact absurd h (by decide)
  · intro k; cases k <;> decide

end Quo
